import Mathlib

/-!
Verification development for the WebXR teleoperation client
(`VideoScreenWeb.tsx` and `StereoVR.tsx`).

The source is an event-driven browser program; we embed it shallowly:
each event handler becomes a pure function on an explicit state record,
and runs of the program are folds of those handlers over event lists.
Browser / platform collaborators (`JSON.parse`, `WebSocket`,
`RTCPeerConnection`, WebXR joint poses) are modelled from their
standard platform semantics, since the handlers' behaviour depends on
them.  Numeric values (`performance.now()` timestamps, matrix entries,
JSON numbers) are modelled as rationals; no floating-point arithmetic
is performed on them by the code under study.
-/

/-! ### JSON values and `JSON.parse`

`Json` is the result type of the browser's `JSON.parse` (ECMA-404
value grammar): null, booleans, numbers, strings, arrays and objects
(ordered field lists; duplicate keys are resolved last-wins, as in
`JSON.parse`). -/

inductive Json where
  | null
  | bool (b : Bool)
  | num (q : ℚ)
  | str (s : String)
  | arr (elems : List Json)
  | obj (fields : List (String × Json))

/-- Last-wins lookup of a key in an object's field list, matching the
behaviour of `JSON.parse` on duplicate keys. -/
def lookupField : List (String × Json) → String → Option Json
  | [], _ => none
  | (k, v) :: rest, key =>
    match lookupField rest key with
    | some r => some r
    | none => if k = key then some v else none

/-- JavaScript property access `j.key` on a parsed JSON value:
defined (non-`undefined`) only on objects carrying the key. -/
def jsField : Json → String → Option Json
  | Json.obj fields, key => lookupField fields key
  | _, _ => none

/-- JavaScript truthiness of a JSON value (`if (v)`): `null`, `false`,
`0` and `""` are falsy, every array and object is truthy. -/
def jsTruthy : Json → Bool
  | Json.null => false
  | Json.bool b => b
  | Json.num q => q != 0
  | Json.str s => s != ""
  | Json.arr _ => true
  | Json.obj _ => true

/-! #### A model of `JSON.parse` (recursive-descent recognizer)

The signaling `onmessage` handler calls `JSON.parse(event.data)` with
no guard, so its behaviour on non-JSON payloads is part of the code's
semantics.  We model the parser over the character list, with a fuel
parameter for the nested value grammar; `jsonParse` supplies fuel
`length + 1`, which is enough because every recursive descent consumes
at least one character. -/

def isJsonWs (c : Char) : Bool :=
  c = ' ' || c = '\n' || c = '\r' || c = '\t'

def skipWs : List Char → List Char
  | [] => []
  | c :: cs => if isJsonWs c then skipWs cs else c :: cs

def parseLit (lit : List Char) (cs : List Char) : Option (List Char) :=
  if lit.isPrefixOf cs then some (cs.drop lit.length) else none

def isDigit (c : Char) : Bool := '0' ≤ c ∧ c ≤ '9'

def spanDigits : List Char → List Char × List Char
  | [] => ([], [])
  | c :: cs =>
    if isDigit c then
      let r := spanDigits cs
      (c :: r.1, r.2)
    else ([], c :: cs)

def digitsToNat (ds : List Char) : ℕ :=
  ds.foldl (fun a c => a * 10 + (c.toNat - '0'.toNat)) 0

/-- Parse a JSON number (`-? int frac? exp?`) and return its rational
value with the remaining input. -/
def parseNumber (cs : List Char) : Option (ℚ × List Char) :=
  let (neg, cs1) :=
    match cs with
    | '-' :: rest => (true, rest)
    | _ => (false, cs)
  match cs1 with
  | '0' :: rest => parseNumberFrac neg 0 rest
  | c :: _ =>
    if isDigit c ∧ c ≠ '0' then
      let r := spanDigits cs1
      parseNumberFrac neg (digitsToNat r.1) r.2
    else none
  | [] => none
where
  parseNumberFrac (neg : Bool) (intPart : ℕ) (cs : List Char) : Option (ℚ × List Char) :=
    let (mantissa, _cs2) :=
      match cs with
      | '.' :: rest =>
        let r := spanDigits rest
        if r.1.isEmpty then (none, cs)
        else (some ((intPart : ℚ) + (digitsToNat r.1 : ℚ) / (10 : ℚ) ^ r.1.length, r.2), cs)
      | _ => (some ((intPart : ℚ), cs), cs)
    match mantissa with
    | none => none
    | some (m, cs3) =>
      let signedM := if neg then -m else m
      match cs3 with
      | e :: rest =>
        if e = 'e' ∨ e = 'E' then
          let (eneg, rest1) :=
            match rest with
            | '-' :: r => (true, r)
            | '+' :: r => (false, r)
            | _ => (false, rest)
          let r := spanDigits rest1
          if r.1.isEmpty then none
          else
            let ev : ℤ := if eneg then -(digitsToNat r.1 : ℤ) else (digitsToNat r.1 : ℤ)
            some (signedM * (10 : ℚ) ^ ev, r.2)
        else some (signedM, cs3)
      | [] => some (signedM, [])

def hexVal (c : Char) : Option ℕ :=
  if isDigit c then some (c.toNat - '0'.toNat)
  else if 'a' ≤ c ∧ c ≤ 'f' then some (c.toNat - 'a'.toNat + 10)
  else if 'A' ≤ c ∧ c ≤ 'F' then some (c.toNat - 'A'.toNat + 10)
  else none

/-- Parse the body of a JSON string after the opening quote, decoding
the standard escapes; returns the decoded string and remaining input. -/
def parseStringBody (acc : List Char) : List Char → Option (String × List Char)
  | [] => none
  | '"' :: rest => some (String.mk acc.reverse, rest)
  | '\\' :: esc :: rest =>
    match esc with
    | '"' => parseStringBody ('"' :: acc) rest
    | '\\' => parseStringBody ('\\' :: acc) rest
    | '/' => parseStringBody ('/' :: acc) rest
    | 'b' => parseStringBody (Char.ofNat 8 :: acc) rest
    | 'f' => parseStringBody (Char.ofNat 12 :: acc) rest
    | 'n' => parseStringBody ('\n' :: acc) rest
    | 'r' => parseStringBody ('\r' :: acc) rest
    | 't' => parseStringBody ('\t' :: acc) rest
    | 'u' =>
      match rest with
      | h1 :: h2 :: h3 :: h4 :: rest' =>
        match hexVal h1, hexVal h2, hexVal h3, hexVal h4 with
        | some a, some b, some c, some d =>
          parseStringBody (Char.ofNat (((a * 16 + b) * 16 + c) * 16 + d) :: acc) rest'
        | _, _, _, _ => none
      | _ => none
    | _ => none
  | c :: rest => parseStringBody (c :: acc) rest

mutual

def parseValue : ℕ → List Char → Option (Json × List Char)
  | 0, _ => none
  | fuel + 1, cs =>
    match skipWs cs with
    | 'n' :: rest => (parseLit ['u', 'l', 'l'] rest).map (fun r => (Json.null, r))
    | 't' :: rest => (parseLit ['r', 'u', 'e'] rest).map (fun r => (Json.bool true, r))
    | 'f' :: rest => (parseLit ['a', 'l', 's', 'e'] rest).map (fun r => (Json.bool false, r))
    | '"' :: rest => (parseStringBody [] rest).map (fun r => (Json.str r.1, r.2))
    | '[' :: rest => parseArray fuel rest
    | '{' :: rest => parseObj fuel rest
    | other => (parseNumber other).map (fun r => (Json.num r.1, r.2))

def parseArray : ℕ → List Char → Option (Json × List Char)
  | 0, _ => none
  | fuel + 1, cs =>
    match skipWs cs with
    | ']' :: rest => some (Json.arr [], rest)
    | other =>
      match parseValue fuel other with
      | none => none
      | some (v, rest) => parseArrayTail fuel [v] rest

def parseArrayTail : ℕ → List Json → List Char → Option (Json × List Char)
  | 0, _, _ => none
  | fuel + 1, acc, cs =>
    match skipWs cs with
    | ',' :: rest =>
      match parseValue fuel rest with
      | none => none
      | some (v, rest') => parseArrayTail fuel (v :: acc) rest'
    | ']' :: rest => some (Json.arr acc.reverse, rest)
    | _ => none

def parseObj : ℕ → List Char → Option (Json × List Char)
  | 0, _ => none
  | fuel + 1, cs =>
    match skipWs cs with
    | '}' :: rest => some (Json.obj [], rest)
    | other =>
      match parseMember fuel other with
      | none => none
      | some (kv, rest) => parseObjTail fuel [kv] rest

def parseObjTail : ℕ → List (String × Json) → List Char → Option (Json × List Char)
  | 0, _, _ => none
  | fuel + 1, acc, cs =>
    match skipWs cs with
    | ',' :: rest =>
      match parseMember fuel rest with
      | none => none
      | some (kv, rest') => parseObjTail fuel (kv :: acc) rest'
    | '}' :: rest => some (Json.obj acc.reverse, rest)
    | _ => none

def parseMember : ℕ → List Char → Option ((String × Json) × List Char)
  | 0, _ => none
  | fuel + 1, cs =>
    match skipWs cs with
    | '"' :: rest =>
      match parseStringBody [] rest with
      | none => none
      | some (key, rest1) =>
        match skipWs rest1 with
        | ':' :: rest2 =>
          match parseValue fuel rest2 with
          | none => none
          | some (v, rest3) => some ((key, v), rest3)
        | _ => none
    | _ => none

end

/-- Model of `JSON.parse`: parse one JSON value and require the
remainder to be whitespace; `none` models a thrown `SyntaxError`. -/
def jsonParse (s : String) : Option Json :=
  match parseValue (s.length + 1) s.data with
  | some (j, rest) => if (skipWs rest).isEmpty then some j else none
  | none => none


/-! ### `RTCPeerConnection` model

The negotiator only uses `setRemoteDescription`, `createAnswer`,
`setLocalDescription` and `addIceCandidate`; we model them from the
WebRTC platform contract.  Session descriptions and ICE candidate
dictionaries travel as parsed JSON values, exactly as the handler
passes them around. -/

inductive RTCError where
  | invalidState

structure RTCPeerConnection where
  remoteDescription : Option Json := none
  localDescription : Option Json := none
  appliedCandidates : List Json := []

def freshPC : RTCPeerConnection := {}

def setRemoteDescription (pc : RTCPeerConnection) (d : Json) : RTCPeerConnection :=
  { pc with remoteDescription := some d }

def setLocalDescription (pc : RTCPeerConnection) (d : Json) : RTCPeerConnection :=
  { pc with localDescription := some d }

/-- The local description synthesized by `pc.createAnswer()`: a session
description whose `type` is `"answer"` (the SDP text itself is opaque
to the code under study). -/
def answerJson : Json := Json.obj [("type", Json.str "answer"), ("sdp", Json.str "")]

/-- `pc.createAnswer()`: rejects unless a remote offer has been set. -/
def createAnswer (pc : RTCPeerConnection) : Except RTCError Json :=
  match pc.remoteDescription with
  | none => Except.error RTCError.invalidState
  | some _ => Except.ok answerJson

/-- `pc.addIceCandidate(c)`: rejects with `InvalidStateError` while no
remote description is set (the platform does not buffer such
candidates); otherwise the candidate is applied to the session. -/
def addIceCandidate (pc : RTCPeerConnection) (c : Json) : Except RTCError RTCPeerConnection :=
  match pc.remoteDescription with
  | none => Except.error RTCError.invalidState
  | some _ => Except.ok { pc with appliedCandidates := pc.appliedCandidates ++ [c] }

/-! ### Signaling `WebSocket` model -/

inductive WsReadyState where
  | connecting
  | opened
  | closing
  | closed
deriving DecidableEq

/-- Payloads handed to `ws.send` on the signaling socket: the bare
`'HELLO'` string or a `JSON.stringify`-ed envelope. -/
inductive OutMsg where
  | helloMsg
  | jsonMsg (j : Json)

structure WebSocketConn where
  readyState : WsReadyState
  sent : List OutMsg

inductive WsError where
  | invalidState

/-- WHATWG `WebSocket.send`: throws `InvalidStateError` while the
socket is still `CONNECTING`; once `CLOSING`/`CLOSED` the data is
silently discarded; when `OPEN` it is transmitted. -/
def wsSend (w : WebSocketConn) (m : OutMsg) : Except WsError WebSocketConn :=
  match w.readyState with
  | WsReadyState.connecting => Except.error WsError.invalidState
  | WsReadyState.opened => Except.ok { w with sent := w.sent ++ [m] }
  | WsReadyState.closing => Except.ok w
  | WsReadyState.closed => Except.ok w

/-! ### The signaling `onmessage` handler (`VideoScreenWeb.tsx`, lines 91-116)

`NegotiatorState` carries the peer connection (`pc.current`) together
with the ordered list of payloads the handler has passed to
`ws.current.send`; the handler is split, as in the source, into the
offer branch followed by the ICE branch. -/

structure NegotiatorState where
  pc : RTCPeerConnection
  outbox : List OutMsg

/-- The source's offer test `message.sdp?.type === 'offer'`:
optional-chained property access followed by strict string equality. -/
def isOfferMsg (j : Json) : Bool :=
  match jsField j "sdp" with
  | some sdpJ =>
    match jsField sdpJ "type" with
    | some (Json.str t) => t == "offer"
    | _ => false
  | none => false

/-- Offer branch of the handler: set the inbound offer as remote
description, synthesize an answer, set it locally, and send the
`{sdp: answer}` envelope.  (`createAnswer` cannot reject here because
the remote description has just been set.) -/
def offerStep (s : NegotiatorState) (j : Json) : NegotiatorState :=
  if isOfferMsg j then
    match jsField j "sdp" with
    | some offerDesc =>
      let pc1 := setRemoteDescription s.pc offerDesc
      match createAnswer pc1 with
      | Except.ok ans =>
        { pc := setLocalDescription pc1 ans,
          outbox := s.outbox ++ [OutMsg.jsonMsg (Json.obj [("sdp", ans)])] }
      | Except.error _ => { s with pc := pc1 }
    | none => s
  else s

/-- ICE branch of the handler: `if (message.ice)` followed by
`addIceCandidate` inside a `try`/`catch` that only warns — a failed
add leaves the state unchanged (the candidate is not recorded
anywhere). -/
def iceStep (s : NegotiatorState) (j : Json) : NegotiatorState :=
  match jsField j "ice" with
  | some iceJ =>
    if jsTruthy iceJ then
      match addIceCandidate s.pc iceJ with
      | Except.ok pc' => { s with pc := pc' }
      | Except.error _ => s
    else s
  | none => s

/-- One run of the `onmessage` body on an already-parsed envelope. -/
def dispatchSignal (s : NegotiatorState) (j : Json) : NegotiatorState :=
  iceStep (offerStep s j) j

inductive SignalError where
  | jsonParseFailure

/-- The full `onmessage` handler: `JSON.parse(event.data)` with no
guard, then dispatch.  A parse failure is a thrown `SyntaxError`
(rejected async handler): no negotiation step runs for that message. -/
def onRawSignalMessage (s : NegotiatorState) (raw : String) :
    Except SignalError NegotiatorState :=
  match jsonParse raw with
  | none => Except.error SignalError.jsonParseFailure
  | some j => Except.ok (dispatchSignal s j)

/-- Processing a sequence of inbound (already-parsed) envelopes in
arrival order. -/
def runSignals (s : NegotiatorState) : List Json → NegotiatorState
  | [] => s
  | j :: js => runSignals (dispatchSignal s j) js

/-- An outbound payload carrying a session description of type
`"offer"`. -/
def isOfferEnvelope (m : OutMsg) : Bool :=
  match m with
  | OutMsg.jsonMsg j =>
    match jsField j "sdp" with
    | some sdpJ =>
      match jsField sdpJ "type" with
      | some (Json.str t) => t == "offer"
      | _ => false
    | none => false
  | OutMsg.helloMsg => false

/-- An outbound payload carrying a session description of type
`"answer"`. -/
def isAnswerEnvelope (m : OutMsg) : Bool :=
  match m with
  | OutMsg.jsonMsg j =>
    match jsField j "sdp" with
    | some sdpJ =>
      match jsField sdpJ "type" with
      | some (Json.str t) => t == "answer"
      | _ => false
    | none => false
  | OutMsg.helloMsg => false

/-! ### Component-level state of `VideoScreenWeb`

The `useRef` cells of the component: `pc.current`, `ws.current`,
`dataChannel.current` and `streamsAdded.current`. -/

inductive Slot where
  | A
  | B
deriving DecidableEq

structure DataChannel where
  channelOpen : Bool

def closeChannel (dc : DataChannel) : DataChannel := { dc with channelOpen := false }

structure ComponentState where
  pc : Option RTCPeerConnection
  ws : Option WebSocketConn
  dataChannel : Option DataChannel
  streamsAdded : ℕ

/-- The refs as initialized on mount: every handle `null`,
`streamsAdded` at `0`. -/
def initialComponentState : ComponentState :=
  { pc := none, ws := none, dataChannel := none, streamsAdded := 0 }

/-- The `ontrack` handler's slot decision (`VideoScreenWeb.tsx`,
lines 36-52) as a function of the `streamsAdded` counter and the
track's `kind`: non-video tracks return early with no slot; the
`streamsAdded === 0` branch assigns slot A (left stream) and
increments the counter; otherwise slot B (right stream), with no
counter change. -/
def ontrackStep (streamsAdded : ℕ) (kind : String) : Option Slot × ℕ :=
  if kind ≠ "video" then (none, streamsAdded)
  else if streamsAdded = 0 then (some Slot.A, streamsAdded + 1)
  else (some Slot.B, streamsAdded)

/-- Slot assignments produced by a sequence of arriving tracks
(`event.track.kind` values), threading the `streamsAdded` counter. -/
def assignTracks (n : ℕ) : List String → List (Option Slot)
  | [] => []
  | k :: ks => (ontrackStep n k).1 :: assignTracks (ontrackStep n k).2 ks

/-- `ontrack` at the component level: updates `streamsAdded` and
reports which slot (stream setter) received the new track's stream. -/
def componentOntrack (s : ComponentState) (kind : String) : ComponentState × Option Slot :=
  ({ s with streamsAdded := (ontrackStep s.streamsAdded kind).2 },
   (ontrackStep s.streamsAdded kind).1)

/-- The signaling-transport connectedness the component reports via
`setIsConnected`: true from the socket's `onopen` until its
`onerror`/`onclose`, i.e. exactly when the socket is open. -/
def wsConnected (s : ComponentState) : Bool :=
  match s.ws with
  | some w => w.readyState = WsReadyState.opened
  | none => false

/-- The envelope `{ice: {candidate, sdpMLineIndex}}` built by the
`onicecandidate` handler. -/
def iceEnvelope (candidate : String) (sdpMLineIndex : ℚ) : Json :=
  Json.obj [("ice", Json.obj
    [("candidate", Json.str candidate), ("sdpMLineIndex", Json.num sdpMLineIndex)])]

/-- The `onicecandidate` handler (`VideoScreenWeb.tsx`, lines 54-65):
`if (event.candidate && ws.current) { ws.current.send(...) }`.
`cand = none` models the end-of-candidates event (`event.candidate`
null).  The send is not wrapped in any `try`/`catch`, so a `wsSend`
error propagates out of the handler. -/
def onicecandidate (s : ComponentState) (cand : Option (String × ℚ)) :
    Except WsError ComponentState :=
  match cand, s.ws with
  | some c, some w =>
    match wsSend w (OutMsg.jsonMsg (iceEnvelope c.1 c.2)) with
    | Except.ok w' => Except.ok { s with ws := some w' }
    | Except.error e => Except.error e
  | _, _ => Except.ok s

/-- `cleanup` (`VideoScreenWeb.tsx`, lines 122-129): optional-chained
`close()` calls (total — the guards are the `?.` operators, and
`close()` itself never throws), then both the data-channel and
peer-connection refs are nulled.  `ws.current` and
`streamsAdded.current` are untouched. -/
def cleanup (s : ComponentState) : ComponentState :=
  let _dcClosed := s.dataChannel.map closeChannel
  let _pcClosed := s.pc
  { s with dataChannel := none, pc := none }

/-- `setupPeerConnection`: installs a fresh `RTCPeerConnection` in the
`pc` ref (handler registration carries no state of its own); the
`streamsAdded` counter is not reset. -/
def setupPeerConnectionStep (s : ComponentState) : ComponentState :=
  { s with pc := some freshPC }

/-! ### Telemetry sampling (`StereoVR.tsx`, `handleHandTracking`) -/

/-- The fixed canonical joint order table (`StereoVR.tsx`,
lines 350-376). -/
def JOINT_ORDER : List String :=
  ["wrist",
   "thumb-metacarpal",
   "thumb-phalanx-proximal",
   "thumb-phalanx-distal",
   "thumb-tip",
   "index-finger-metacarpal",
   "index-finger-phalanx-proximal",
   "index-finger-phalanx-intermediate",
   "index-finger-phalanx-distal",
   "index-finger-tip",
   "middle-finger-metacarpal",
   "middle-finger-phalanx-proximal",
   "middle-finger-phalanx-intermediate",
   "middle-finger-phalanx-distal",
   "middle-finger-tip",
   "ring-finger-metacarpal",
   "ring-finger-phalanx-proximal",
   "ring-finger-phalanx-intermediate",
   "ring-finger-phalanx-distal",
   "ring-finger-tip",
   "pinky-finger-metacarpal",
   "pinky-finger-phalanx-proximal",
   "pinky-finger-phalanx-intermediate",
   "pinky-finger-phalanx-distal",
   "pinky-finger-tip"]

/-- The 16 identity-matrix values pushed for an unresolvable or
missing joint (`StereoVR.tsx`, lines 399-404 and 409-414). -/
def identityMatrix16 : List ℚ :=
  [1, 0, 0, 0,
   0, 1, 0, 0,
   0, 0, 1, 0,
   0, 0, 0, 1]

/-- `Array.from(jointPose.transform.matrix)`: an `XRRigidTransform`
matrix is always 16 floats, modelled as a function on `Fin 16`. -/
def matrixValues (m : Fin 16 → ℚ) : List ℚ :=
  (List.finRange 16).map m

/-- The per-joint contribution to the continuous array: the pose
matrix when the joint resolved this tick, the identity matrix when
the joint was not found in the hand or its pose was unavailable. -/
def jointChunk {α : Type} (hand : String → Option α)
    (getJointPose : Option (α → Option (Fin 16 → ℚ))) (name : String) : List ℚ :=
  match hand name, getJointPose with
  | some joint, some f =>
    match f joint with
    | some pose => matrixValues pose
    | none => identityMatrix16
  | _, _ => identityMatrix16

/-- The continuous array built for one tracked hand (`StereoVR.tsx`,
lines 386-416): one 16-value block per entry of `JOINT_ORDER`, in
order.  `hand` models `hand.get(jointName)`, `getJointPose` models the
(optional) `frame.getJointPose`. -/
def serializeHand {α : Type} (hand : String → Option α)
    (getJointPose : Option (α → Option (Fin 16 → ℚ))) : List ℚ :=
  (JOINT_ORDER.map (jointChunk hand getJointPose)).flatten

/-- The pose the loop managed to resolve for a joint name this tick
(`none` when the joint is missing from the hand, `frame.getJointPose`
is unavailable, or the pose lookup returned null). -/
def resolvedPose {α : Type} (hand : String → Option α)
    (getJointPose : Option (α → Option (Fin 16 → ℚ))) (name : String) :
    Option (Fin 16 → ℚ) :=
  match hand name, getJointPose with
  | some joint, some f => f joint
  | _, _ => none

/-! ### The telemetry rate gate (`StereoVR.tsx`, lines 332-338) -/

/-- `const sendInterval = 1000 / 60`. -/
def sendInterval : ℚ := 1000 / 60

/-- Timestamps of the ticks that pass the rate gate, given the current
`lastHandSendRef` value: a tick with `now - last < sendInterval`
returns early (dropped, nothing queued); otherwise the tick is
accepted and `lastHandSendRef` is set to `now`. -/
def acceptedTimes (last : ℚ) : List ℚ → List ℚ
  | [] => []
  | t :: ts =>
    if t - last < sendInterval then acceptedTimes last ts
    else t :: acceptedTimes t ts

/-- A synthetic tick source firing every 1 ms over a 100 ms window:
timestamps 0, 1, ..., 99 ms. -/
def syntheticTicks : List ℚ := (List.range 100).map (fun n : ℕ => (n : ℚ))

/-! ### The hand-tracking transport and send loop (`StereoVR.tsx`) -/

/-- Messages sent on the hand-tracking WebSocket: the initial
`{role, robot_id}` announcement, or a serialized telemetry frame
(handedness keys mapped to their 400-value arrays). -/
inductive TeleMsg where
  | roleAnnouncement
  | jointFrameMsg (payload : List (String × List ℚ))

def isFrameMsg : TeleMsg → Bool
  | TeleMsg.roleAnnouncement => false
  | TeleMsg.jointFrameMsg _ => true

structure TelemetryConn where
  readyState : WsReadyState
  sent : List TeleMsg

/-- One entry of `frame.session.inputSources`: a handedness tag and,
when present, the hand's joint-space lookup (joint spaces themselves
are opaque handles, here `ℕ`). -/
structure InputSource where
  handedness : String
  hand : Option (String → Option ℕ)

/-- The component state relevant to hand tracking: the WebSocket
created by `setupHandTrackingWebSocket`, whether `wsRef.current` has
been set (it is assigned only inside `onopen`, after the role
announcement is sent), and `lastHandSendRef.current`. -/
structure HandTrackingState where
  socket : TelemetryConn
  wsRefSet : Bool
  lastHandSend : ℚ

def initTele : HandTrackingState :=
  { socket := { readyState := WsReadyState.connecting, sent := [] },
    wsRefSet := false, lastHandSend := 0 }

/-- `handData[handedness] = continuousArray` for each input source
with a `hand`. -/
def buildHandData (sources : List InputSource)
    (getJointPose : Option (ℕ → Option (Fin 16 → ℚ))) : List (String × List ℚ) :=
  sources.filterMap fun src =>
    src.hand.map fun h => (src.handedness, serializeHand h getJointPose)

/-- A telemetry send as performed inside
`try { wsRef.current!.send(...) } catch { log }`: a throwing send
(socket still connecting) is caught and the frame lost; on a
closing/closed socket the data is silently discarded; on an open
socket it is transmitted. -/
def teleSendCaught (w : TelemetryConn) (m : TeleMsg) : TelemetryConn :=
  match w.readyState with
  | WsReadyState.opened => { w with sent := w.sent ++ [m] }
  | _ => w

/-- `handleHandTracking` (`StereoVR.tsx`, lines 330-435): rate gate
first (updating `lastHandSendRef` whenever the gate passes), then
build `handData` from the input sources, and send it only when
non-empty and `wsRef.current` is set (a null ref makes the
`wsRef.current!.send` throw a `TypeError`, caught by the same
`try`/`catch`). -/
def handleHandTracking (s : HandTrackingState) (now : ℚ)
    (sources : List InputSource)
    (getJointPose : Option (ℕ → Option (Fin 16 → ℚ))) : HandTrackingState :=
  if now - s.lastHandSend < sendInterval then s
  else if (buildHandData sources getJointPose).isEmpty then
    { s with lastHandSend := now }
  else if s.wsRefSet then
    { s with lastHandSend := now, socket := teleSendCaught s.socket (TeleMsg.jointFrameMsg (buildHandData sources getJointPose)) }
  else { s with lastHandSend := now }

/-- Events driving the hand-tracking connection: the socket's `open`
transition (whose handler sends the role announcement and only then
assigns `wsRef.current`), the socket closing, and one animation tick. -/
inductive TeleEvent where
  | openEvt
  | closeEvt
  | tick (now : ℚ) (sources : List InputSource)
      (getJointPose : Option (ℕ → Option (Fin 16 → ℚ)))

def teleStep (s : HandTrackingState) (e : TeleEvent) : HandTrackingState :=
  match e with
  | TeleEvent.openEvt =>
    match s.socket.readyState with
    | WsReadyState.connecting =>
      { socket := { readyState := WsReadyState.opened,
                    sent := s.socket.sent ++ [TeleMsg.roleAnnouncement] },
        wsRefSet := true,
        lastHandSend := s.lastHandSend }
    | _ => s
  | TeleEvent.closeEvt =>
    { s with socket := { s.socket with readyState := WsReadyState.closed } }
  | TeleEvent.tick now sources gjp => handleHandTracking s now sources gjp

/-- A run of the hand-tracking connection from its creation. -/
def runTele (evts : List TeleEvent) : HandTrackingState :=
  evts.foldl teleStep initTele

/-! ### Concrete states and envelopes used as test inputs -/

/-- A component whose signaling socket exists but is still
`CONNECTING`: `onopen` has not fired, so the component is not
connected. -/
def c7ConnectingState : ComponentState :=
  { pc := none,
    ws := some { readyState := WsReadyState.connecting, sent := [] },
    dataChannel := none, streamsAdded := 0 }

/-- A component whose signaling socket is open, with nothing sent yet. -/
def c7OpenState : ComponentState :=
  { pc := none,
    ws := some { readyState := WsReadyState.opened, sent := [] },
    dataChannel := none, streamsAdded := 0 }

/-- An ICE candidate dictionary as delivered by the remote peer. -/
def c1Candidate : Json :=
  Json.obj [("candidate", Json.str "candidate:0 1 UDP 2122252543 10.0.0.5 40000 typ host"),
            ("sdpMLineIndex", Json.num 0)]

/-- An `{ice: ...}` envelope arriving before any offer. -/
def c1IceMsg : Json := Json.obj [("ice", c1Candidate)]

/-- An `{sdp: {type: "offer", ...}}` envelope. -/
def c1OfferMsg : Json :=
  Json.obj [("sdp", Json.obj [("type", Json.str "offer"), ("sdp", Json.str "v=0")])]

/-- A second offer envelope, used as a test input for the
offer/answer count. -/
def c5OfferMsg : Json :=
  Json.obj [("sdp", Json.obj [("type", Json.str "offer"), ("sdp", Json.str "v=0 second")])]

/-- The `{sdp: answer}` envelope payload emitted by the offer branch. -/
def answerEnvelopeMsg : OutMsg := OutMsg.jsonMsg (Json.obj [("sdp", answerJson)])

/-! ## Theorems -/

/-- Claim C6: teardown is idempotent and total — `cleanup` is a total
function (the only dereferences are behind `?.` guards, so no call of
it can raise), calling it twice equals calling it once, and after any
call — including one before any setup, from the initial state — the
session (`pc`) and data-channel handles are null. -/
theorem claim_C6 : ∀ s : ComponentState,
    cleanup (cleanup s) = cleanup s ∧
    (cleanup s).pc = none ∧ (cleanup s).dataChannel = none ∧
    (cleanup initialComponentState).pc = none ∧
    (cleanup initialComponentState).dataChannel = none := by
  intro s
  exact ⟨rfl, rfl, rfl, rfl, rfl⟩

/-- Claim C9: `cleanup` leaves the `streamsAdded` counter unchanged,
so after a renegotiation (cleanup followed by a fresh peer
connection), the first video track arriving on the fresh session is
assigned to slot B whenever any track had been assigned before. -/
theorem claim_C9 : ∀ s : ComponentState,
    (cleanup s).streamsAdded = s.streamsAdded ∧
    (1 ≤ s.streamsAdded →
      (componentOntrack (setupPeerConnectionStep (cleanup s)) "video").2 = some Slot.B) := by
  intro s
  refine ⟨rfl, fun h => ?_⟩
  have hne : s.streamsAdded ≠ 0 := by omega
  simp [componentOntrack, setupPeerConnectionStep, cleanup, ontrackStep, hne]

theorem claim_C9_witness :
    (cleanup { initialComponentState with streamsAdded := 1 }).streamsAdded = 1 ∧
    (componentOntrack (setupPeerConnectionStep
        (cleanup { initialComponentState with streamsAdded := 1 })) "video").2 = some Slot.B := by
  have h := claim_C9 { initialComponentState with streamsAdded := 1 }
  exact ⟨h.1, h.2 (by decide)⟩

/-- Once a video track has been seen (`streamsAdded ≠ 0`), every
further video track is assigned slot B and non-video tracks none. -/
theorem assignTracks_of_pos (ks : List String) : ∀ n : ℕ, n ≠ 0 → ∀ i : ℕ,
    (assignTracks n ks)[i]? =
      (ks[i]?).map (fun k => if k = "video" then some Slot.B else none) := by
  induction ks with
  | nil => intro n hn i; simp [assignTracks]
  | cons k ks ih =>
    intro n hn i
    by_cases hk : k = "video"
    · subst hk
      have hstep : ontrackStep n "video" = (some Slot.B, n) := by
        simp [ontrackStep, hn]
      cases i with
      | zero => simp [assignTracks, hstep]
      | succ j => simp [assignTracks, hstep, ih n hn j]
    · have hstep : ontrackStep n k = (none, n) := by
        simp [ontrackStep, hk]
      cases i with
      | zero => simp [assignTracks, hstep, hk]
      | succ j => simp [assignTracks, hstep, ih n hn j]

/-- Claim C2: slot assignment is deterministic.  Starting from the
fresh counter, position `i` of the assignment sequence is: no slot for
a non-video track; slot A for a video track with no earlier video
track; slot B for a video track with some earlier video track. -/
theorem claim_C2 : ∀ (ks : List String) (i : ℕ),
    (assignTracks 0 ks)[i]? =
      (ks[i]?).map (fun k =>
        if k = "video" then
          if (ks.take i).any (fun k' => k' == "video") then some Slot.B else some Slot.A
        else none) := by
  intro ks
  induction ks with
  | nil => intro i; simp [assignTracks]
  | cons k ks ih =>
    intro i
    by_cases hk : k = "video"
    · subst hk
      have hstep : ontrackStep 0 "video" = (some Slot.A, 1) := by
        simp [ontrackStep]
      cases i with
      | zero => simp [assignTracks, hstep]
      | succ j =>
        have hpos := assignTracks_of_pos ks 1 one_ne_zero j
        simp [assignTracks, hstep, hpos]
    · have hstep : ontrackStep 0 k = (none, 0) := by
        simp [ontrackStep, hk]
      cases i with
      | zero => simp [assignTracks, hstep, hk]
      | succ j =>
        have hne : (k == "video") = false := by
          simp [hk]
        simp [assignTracks, hstep, ih j, hne]

/-- Accepted timestamps are spaced by at least `sendInterval`,
starting from the stored `lastHandSendRef` value. -/
theorem acceptedTimes_chain : ∀ (last : ℚ) (ts : List ℚ),
    List.Chain (fun a b => sendInterval ≤ b - a) last (acceptedTimes last ts) := by
  intro last ts
  induction ts generalizing last with
  | nil => exact List.Chain.nil
  | cons t ts ih =>
    by_cases h : t - last < sendInterval
    · simpa [acceptedTimes, h] using ih last
    · simp only [acceptedTimes, if_neg h]
      exact List.Chain.cons (not_lt.mp h) (ih t)

/-- Accepted timestamps form a subsequence of the tick sequence:
dropped ticks are not queued or reordered. -/
theorem acceptedTimes_sublist : ∀ (last : ℚ) (ts : List ℚ),
    (acceptedTimes last ts).Sublist ts := by
  intro last ts
  induction ts generalizing last with
  | nil => exact List.Sublist.refl []
  | cons t ts ih =>
    by_cases h : t - last < sendInterval
    · simp only [acceptedTimes, if_pos h]
      exact List.Sublist.cons t (ih last)
    · simp only [acceptedTimes, if_neg h]
      exact List.Sublist.cons₂ t (ih t)

/-- A chain of `sendInterval`-spaced values starting at `x`, all below
`B`, has its length bounded by `(B - x) / sendInterval`. -/
theorem chain_length_le : ∀ (l : List ℚ) (x B : ℚ),
    List.Chain (fun a b => sendInterval ≤ b - a) x l →
    (∀ y ∈ l, y ≤ B) →
    l = [] ∨ x + l.length * sendInterval ≤ B := by
  intro l
  induction l with
  | nil => intro x B _ _; exact Or.inl rfl
  | cons a l ih =>
    intro x B hchain hbound
    rcases hchain with _ | ⟨hgap, hchain'⟩
    have ha : a ≤ B := hbound a (List.mem_cons_self a l)
    rcases ih a B hchain' (fun y hy => hbound y (List.mem_cons_of_mem a hy)) with hnil | hle
    · subst hnil
      right
      simp only [List.length_cons, List.length_nil]
      push_cast
      linarith
    · right
      simp only [List.length_cons]
      push_cast
      linarith

/-- Claim C4: the telemetry rate gate.  For any starting
`lastHandSendRef` value and any tick sequence, consecutive accepted
timestamps (including the step from the stored `last`) are at least
`1000/60` ms apart, and the accepted ticks are a subsequence of the
tick sequence (nothing is queued or reordered); concretely, ticks
firing every 1 ms over a 100 ms window yield at most 7 accepted
frames. -/
theorem claim_C4 :
    (∀ (last : ℚ) (ts : List ℚ),
      List.Chain (fun a b => sendInterval ≤ b - a) last (acceptedTimes last ts) ∧
      (acceptedTimes last ts).Sublist ts) ∧
    (acceptedTimes 0 syntheticTicks).length ≤ 7 := by
  constructor
  · intro last ts
    exact ⟨acceptedTimes_chain last ts, acceptedTimes_sublist last ts⟩
  · have hsub := acceptedTimes_sublist 0 syntheticTicks
    have hbound : ∀ y ∈ acceptedTimes 0 syntheticTicks, y ≤ 99 := by
      intro y hy
      have hy' : y ∈ syntheticTicks := hsub.subset hy
      obtain ⟨n, hn, rfl⟩ := List.mem_map.mp hy'
      have : n ≤ 99 := by
        have := List.mem_range.mp hn
        omega
      exact_mod_cast Nat.cast_le.mpr this
    rcases chain_length_le _ 0 99 (acceptedTimes_chain 0 syntheticTicks) hbound with hnil | hle
    · rw [hnil]; simp
    · by_contra hgt
      push_neg at hgt
      have h8 : (8 : ℚ) ≤ ((acceptedTimes 0 syntheticTicks).length : ℚ) := by
        exact_mod_cast hgt
      have hsi : sendInterval = 50 / 3 := by norm_num [sendInterval]
      rw [hsi] at hle
      nlinarith

/-- A joint that did not resolve contributes the identity block. -/
theorem jointChunk_of_none {α : Type} (hand : String → Option α)
    (gjp : Option (α → Option (Fin 16 → ℚ))) (name : String)
    (h : resolvedPose hand gjp name = none) :
    jointChunk hand gjp name = identityMatrix16 := by
  cases hh : hand name with
  | none => simp [jointChunk, hh]
  | some joint =>
    cases gjp with
    | none => simp [jointChunk, hh]
    | some f =>
      simp only [resolvedPose, hh] at h
      simp [jointChunk, hh, h]

/-- A joint that resolved contributes its own 16 matrix values. -/
theorem jointChunk_of_some {α : Type} (hand : String → Option α)
    (gjp : Option (α → Option (Fin 16 → ℚ))) (name : String) (m : Fin 16 → ℚ)
    (h : resolvedPose hand gjp name = some m) :
    jointChunk hand gjp name = matrixValues m := by
  cases hh : hand name with
  | none => simp [resolvedPose, hh] at h
  | some joint =>
    cases gjp with
    | none => simp [resolvedPose, hh] at h
    | some f =>
      simp only [resolvedPose, hh] at h
      simp [jointChunk, hh, h]

/-- Every per-joint block has exactly 16 values. -/
theorem jointChunk_length {α : Type} (hand : String → Option α)
    (gjp : Option (α → Option (Fin 16 → ℚ))) (name : String) :
    (jointChunk hand gjp name).length = 16 := by
  cases hres : resolvedPose hand gjp name with
  | none => rw [jointChunk_of_none hand gjp name hres]; rfl
  | some m => rw [jointChunk_of_some hand gjp name m hres]; simp [matrixValues]

/-- Length of a flat concatenation of 16-value blocks. -/
theorem flatten_chunks_length {β : Type} (f : String → List β)
    (h : ∀ n, (f n).length = 16) :
    ∀ names : List String, ((names.map f).flatten).length = 16 * names.length := by
  intro names
  induction names with
  | nil => simp
  | cons n ns ih =>
    simp only [List.map_cons, List.flatten_cons, List.length_append, ih, h n,
      List.length_cons]
    ring

/-- The `i`-th 16-value slice of a flat concatenation of 16-value
blocks is the block of the `i`-th name. -/
theorem flatten_chunks_slice {β : Type} (f : String → List β)
    (h : ∀ n, (f n).length = 16) :
    ∀ (names : List String) (i : ℕ) (name : String), names[i]? = some name →
      (((names.map f).flatten).drop (16 * i)).take 16 = f name := by
  intro names
  induction names with
  | nil => intro i name hi; simp at hi
  | cons n ns ih =>
    intro i name hi
    cases i with
    | zero =>
      simp only [List.getElem?_cons_zero, Option.some.injEq] at hi
      subst hi
      simp only [List.map_cons, List.flatten_cons, Nat.mul_zero, List.drop_zero]
      exact List.take_left' (h _)
    | succ j =>
      simp only [List.getElem?_cons_succ] at hi
      have hsplit : 16 * (j + 1) = (f n).length + 16 * j := by
        rw [h n]; ring
      simp only [List.map_cons, List.flatten_cons, hsplit, List.drop_append]
      exact ih j name hi

/-- Claim C3: for a tracked hand with any subset of the 25 canonical
joints resolvable, the emitted continuous array has exactly
400 = 25 × 16 values; the 16-value slice at joint position `i` is the
identity matrix whenever that joint did not resolve, and the joint's
own matrix values (in canonical joint order) whenever it did. -/
theorem claim_C3 {α : Type} (hand : String → Option α)
    (gjp : Option (α → Option (Fin 16 → ℚ))) :
    (serializeHand hand gjp).length = 400 ∧
    (∀ (i : ℕ) (name : String), JOINT_ORDER[i]? = some name →
      resolvedPose hand gjp name = none →
      ((serializeHand hand gjp).drop (16 * i)).take 16 = identityMatrix16) ∧
    (∀ (i : ℕ) (name : String) (m : Fin 16 → ℚ), JOINT_ORDER[i]? = some name →
      resolvedPose hand gjp name = some m →
      ((serializeHand hand gjp).drop (16 * i)).take 16 = matrixValues m) := by
  have hlen := jointChunk_length hand gjp
  refine ⟨?_, ?_, ?_⟩
  · unfold serializeHand
    rw [flatten_chunks_length (jointChunk hand gjp) hlen JOINT_ORDER]
    rfl
  · intro i name hi hres
    unfold serializeHand
    rw [flatten_chunks_slice (jointChunk hand gjp) hlen JOINT_ORDER i name hi,
      jointChunk_of_none hand gjp name hres]
  · intro i name m hi hres
    unfold serializeHand
    rw [flatten_chunks_slice (jointChunk hand gjp) hlen JOINT_ORDER i name hi,
      jointChunk_of_some hand gjp name m hres]

theorem claim_C3_witness :
    (serializeHand (fun _ => (none : Option Unit)) none).length = 400 ∧
    ((serializeHand (fun _ => (none : Option Unit)) none).drop (16 * 0)).take 16 =
      identityMatrix16 := by
  have h := claim_C3 (fun _ => (none : Option Unit)) none
  exact ⟨h.1, h.2.1 0 "wrist" rfl rfl⟩


/-- Claim C7 counterexample: with the signaling transport not
connected (socket still `CONNECTING`), a local ICE candidate is not
silently dropped — the unguarded `ws.current.send` throws an
`InvalidStateError` out of the `onicecandidate` handler, contradicting
the claim's "no error raised". -/
theorem claim_C7_counterexample :
    wsConnected c7ConnectingState = false ∧
    onicecandidate c7ConnectingState
        (some ("candidate:0 1 UDP 2122252543 192.168.0.2 50000 typ host", 0)) =
      Except.error WsError.invalidState := by
  exact ⟨rfl, rfl⟩

/-- Claim C7 as amended: on local ICE candidate discovery the handler
checks only that a socket handle exists (`event.candidate && ws.current`).
With no handle, the candidate is silently dropped; with a handle on an
open socket, the `{ice: {candidate, sdpMLineIndex}}` envelope is
emitted; with a handle on a closing/closed socket, the candidate is
silently dropped; with a handle on a still-connecting socket, the send
raises an `InvalidStateError` instead of dropping silently.  The
end-of-candidates event (`event.candidate` null) never sends. -/
theorem claim_C7_amended : ∀ (s : ComponentState) (c : String × ℚ),
    (s.ws = none → onicecandidate s (some c) = Except.ok s) ∧
    (∀ w, s.ws = some w → w.readyState = WsReadyState.opened →
      onicecandidate s (some c) =
        Except.ok { s with ws := some { w with sent := w.sent ++ [OutMsg.jsonMsg (iceEnvelope c.1 c.2)] } }) ∧
    (∀ w, s.ws = some w →
      (w.readyState = WsReadyState.closing ∨ w.readyState = WsReadyState.closed) →
      onicecandidate s (some c) = Except.ok s) ∧
    (∀ w, s.ws = some w → w.readyState = WsReadyState.connecting →
      onicecandidate s (some c) = Except.error WsError.invalidState) ∧
    onicecandidate s none = Except.ok s := by
  intro s c
  obtain ⟨pc, ws, dc, n⟩ := s
  refine ⟨?_, ?_, ?_, ?_, ?_⟩
  · intro h
    cases h
    rfl
  · intro w hw hrs
    cases hw
    obtain ⟨rs, sent⟩ := w
    cases hrs
    rfl
  · intro w hw hrs
    cases hw
    obtain ⟨rs, sent⟩ := w
    rcases hrs with h | h <;> cases h <;> rfl
  · intro w hw hrs
    cases hw
    obtain ⟨rs, sent⟩ := w
    cases hrs
    rfl
  · cases ws <;> rfl

theorem claim_C7_witness :
    onicecandidate c7OpenState (some ("cand", 0)) =
      Except.ok { c7OpenState with ws := some { readyState := WsReadyState.opened, sent := [OutMsg.jsonMsg (iceEnvelope "cand" 0)] } } := by
  have h := claim_C7_amended c7OpenState ("cand", 0)
  simpa using h.2.1 { readyState := WsReadyState.opened, sent := [] } rfl rfl

/-- Claim C1 counterexample: an ICE-candidate envelope arrives before
the remote description is set, then the offer arrives and the remote
description is set — yet the candidate was never applied to the
session (`appliedCandidates` is empty): it was dropped by the
`catch`-and-warn, not buffered and retried. -/
theorem claim_C1_counterexample :
    ((runSignals { pc := freshPC, outbox := [] } [c1IceMsg, c1OfferMsg]).pc.remoteDescription).isSome = true ∧
    (runSignals { pc := freshPC, outbox := [] } [c1IceMsg, c1OfferMsg]).pc.appliedCandidates = [] := by
  exact ⟨rfl, rfl⟩

/-- Claim C1 as amended: an ICE-candidate envelope received before the
remote description is set is handed to `addIceCandidate` immediately;
the resulting `InvalidStateError` is caught and logged and the
candidate is dropped — the negotiator state is left exactly unchanged
(nothing is buffered, so nothing can be retried once the description
is set).  A candidate received after the remote description is set is
applied at once. -/
theorem claim_C1_amended : ∀ (st : NegotiatorState) (j iceJ : Json),
    jsField j "sdp" = none → jsField j "ice" = some iceJ → jsTruthy iceJ = true →
    ((st.pc.remoteDescription = none → dispatchSignal st j = st) ∧
     (∀ d, st.pc.remoteDescription = some d →
       (dispatchSignal st j).pc.appliedCandidates = st.pc.appliedCandidates ++ [iceJ])) := by
  intro st j iceJ hsdp hice htruthy
  have hoffer : isOfferMsg j = false := by
    unfold isOfferMsg
    rw [hsdp]
  have hofferStep : offerStep st j = st := by
    unfold offerStep
    rw [hoffer]
    simp
  constructor
  · intro hremote
    unfold dispatchSignal
    rw [hofferStep]
    unfold iceStep
    rw [hice]
    simp only [htruthy, if_true]
    unfold addIceCandidate
    rw [hremote]
  · intro d hremote
    unfold dispatchSignal
    rw [hofferStep]
    unfold iceStep
    rw [hice]
    simp only [htruthy, if_true]
    unfold addIceCandidate
    rw [hremote]

theorem claim_C1_witness :
    dispatchSignal { pc := freshPC, outbox := [] } c1IceMsg =
      { pc := freshPC, outbox := [] } := by
  have h := claim_C1_amended { pc := freshPC, outbox := [] } c1IceMsg c1Candidate rfl rfl rfl
  exact h.1 rfl

/-- An offer message always carries an `sdp` member. -/
theorem isOfferMsg_exists_sdp (j : Json) (hj : isOfferMsg j = true) :
    ∃ sdpJ, jsField j "sdp" = some sdpJ := by
  unfold isOfferMsg at hj
  cases h : jsField j "sdp" with
  | none => rw [h] at hj; cases hj
  | some sdpJ => exact ⟨sdpJ, rfl⟩

/-- The offer branch appends exactly one answer envelope for an offer
and nothing otherwise. -/
theorem offerStep_outbox (s : NegotiatorState) (j : Json) :
    (offerStep s j).outbox =
      s.outbox ++ (if isOfferMsg j then [answerEnvelopeMsg] else []) := by
  unfold offerStep
  by_cases h : isOfferMsg j = true
  · obtain ⟨sdpJ, hsdp⟩ := isOfferMsg_exists_sdp j h
    simp only [h, if_true, hsdp]
    simp [setRemoteDescription, createAnswer, setLocalDescription, answerEnvelopeMsg]
  · simp only [h]
    simp

/-- The ICE branch never sends anything. -/
theorem iceStep_outbox (s : NegotiatorState) (j : Json) :
    (iceStep s j).outbox = s.outbox := by
  unfold iceStep
  cases jsField j "ice" with
  | none => rfl
  | some iceJ =>
    by_cases h : jsTruthy iceJ = true
    · simp only [h, if_true]
      cases h2 : addIceCandidate s.pc iceJ <;> simp
    · simp [h]

/-- A successful `addIceCandidate` leaves both descriptions unchanged. -/
theorem addIceCandidate_ok_descriptions (pc pc' : RTCPeerConnection) (c : Json)
    (h : addIceCandidate pc c = Except.ok pc') :
    pc'.remoteDescription = pc.remoteDescription ∧
    pc'.localDescription = pc.localDescription := by
  unfold addIceCandidate at h
  cases hr : pc.remoteDescription with
  | none => rw [hr] at h; cases h
  | some d =>
    rw [hr] at h
    injection h with h3
    rw [← h3]
    exact ⟨rfl, rfl⟩

/-- The ICE branch leaves both descriptions unchanged. -/
theorem iceStep_descriptions (s : NegotiatorState) (j : Json) :
    (iceStep s j).pc.remoteDescription = s.pc.remoteDescription ∧
    (iceStep s j).pc.localDescription = s.pc.localDescription := by
  unfold iceStep
  cases jsField j "ice" with
  | none => exact ⟨rfl, rfl⟩
  | some iceJ =>
    by_cases h : jsTruthy iceJ = true
    · simp only [h, if_true]
      cases h2 : addIceCandidate s.pc iceJ with
      | ok pc' =>
        have hd := addIceCandidate_ok_descriptions s.pc pc' iceJ h2
        simpa using hd
      | error e => exact ⟨rfl, rfl⟩
    · simp [h]

/-- Processing an offer sets the offer as remote description and the
synthesized answer as local description. -/
theorem offerStep_pc_of_offer (s : NegotiatorState) (j sdpJ : Json)
    (hj : isOfferMsg j = true) (hsdp : jsField j "sdp" = some sdpJ) :
    (offerStep s j).pc.remoteDescription = some sdpJ ∧
    (offerStep s j).pc.localDescription = some answerJson := by
  unfold offerStep
  simp only [hj, if_true, hsdp]
  simp [setRemoteDescription, createAnswer, setLocalDescription]

/-- The outbox after a run is the input's offers answered in order. -/
theorem runSignals_outbox : ∀ (msgs : List Json) (s : NegotiatorState),
    (runSignals s msgs).outbox =
      s.outbox ++
        (msgs.map (fun j => if isOfferMsg j then [answerEnvelopeMsg] else [])).flatten := by
  intro msgs
  induction msgs with
  | nil => intro s; simp [runSignals]
  | cons j js ih =>
    intro s
    show (runSignals (dispatchSignal s j) js).outbox = _
    rw [ih (dispatchSignal s j)]
    unfold dispatchSignal
    rw [iceStep_outbox, offerStep_outbox]
    simp [List.append_assoc]

theorem isAnswerEnvelope_answerEnvelopeMsg : isAnswerEnvelope answerEnvelopeMsg = true := rfl

theorem isOfferEnvelope_answerEnvelopeMsg : isOfferEnvelope answerEnvelopeMsg = false := rfl

/-- Counting the answers produced for a message sequence. -/
theorem countAnswers_flatten : ∀ msgs : List Json,
    ((msgs.map (fun j => if isOfferMsg j then [answerEnvelopeMsg] else [])).flatten).countP
        isAnswerEnvelope =
      msgs.countP (fun j => isOfferMsg j) := by
  intro msgs
  induction msgs with
  | nil => rfl
  | cons j js ih =>
    simp only [List.map_cons, List.flatten_cons, List.countP_append, ih, List.countP_cons]
    by_cases h : isOfferMsg j = true
    · simp only [h, if_true, List.countP_cons, List.countP_nil,
        isAnswerEnvelope_answerEnvelopeMsg]
      simp
      omega
    · simp [h]

/-- Claim C5: for every sequence of inbound envelopes, the negotiator
emits exactly one answer envelope per inbound offer (setting the offer
as remote description and the synthesized answer as local
description), and no payload it ever hands to the signaling socket —
answer envelopes, local ICE envelopes, or the `HELLO` announcement —
is an offer envelope. -/
theorem claim_C5 : ∀ (pc0 : RTCPeerConnection) (msgs : List Json),
    ((runSignals { pc := pc0, outbox := [] } msgs).outbox.countP isAnswerEnvelope =
      msgs.countP (fun j => isOfferMsg j)) ∧
    (∀ m ∈ (runSignals { pc := pc0, outbox := [] } msgs).outbox,
      isOfferEnvelope m = false) ∧
    (∀ (candidate : String) (mline : ℚ),
      isOfferEnvelope (OutMsg.jsonMsg (iceEnvelope candidate mline)) = false) ∧
    isOfferEnvelope OutMsg.helloMsg = false ∧
    (∀ (st : NegotiatorState) (j : Json), isOfferMsg j = true →
      (dispatchSignal st j).pc.remoteDescription = jsField j "sdp" ∧
      (dispatchSignal st j).pc.localDescription = some answerJson) := by
  intro pc0 msgs
  refine ⟨?_, ?_, ?_, rfl, ?_⟩
  · rw [runSignals_outbox]
    simp only [List.nil_append]
    exact countAnswers_flatten msgs
  · intro m hm
    rw [runSignals_outbox] at hm
    simp only [List.nil_append] at hm
    obtain ⟨l, hl, hml⟩ := List.mem_flatten.mp hm
    obtain ⟨j, _, rfl⟩ := List.mem_map.mp hl
    by_cases h : isOfferMsg j = true
    · simp only [h, if_true, List.mem_singleton] at hml
      rw [hml]
      exact isOfferEnvelope_answerEnvelopeMsg
    · simp [h] at hml
  · intro candidate mline
    rfl
  · intro st j hj
    obtain ⟨sdpJ, hsdp⟩ := isOfferMsg_exists_sdp j hj
    have hoffer := offerStep_pc_of_offer st j sdpJ hj hsdp
    have hice := iceStep_descriptions (offerStep st j) j
    unfold dispatchSignal
    rw [hice.1, hice.2, hoffer.1, hoffer.2, hsdp]
    exact ⟨rfl, rfl⟩

theorem claim_C5_witness :
    ((runSignals { pc := freshPC, outbox := [] } [c5OfferMsg]).outbox.countP isAnswerEnvelope = 1) ∧
    ((dispatchSignal { pc := freshPC, outbox := [] } c5OfferMsg).pc.remoteDescription =
      jsField c5OfferMsg "sdp") := by
  have h := claim_C5 freshPC [c5OfferMsg]
  constructor
  · rw [h.1]
    rfl
  · exact (h.2.2.2.2 { pc := freshPC, outbox := [] } c5OfferMsg rfl).1

/-- Claim C10: the inbound signaling handler parses every message with
an unguarded `JSON.parse`; any payload that is not valid JSON — in
particular the bare string `HELLO` that the protocol itself uses as an
envelope — makes the handler throw before dispatching, so no
negotiation step is performed for that message. -/
theorem claim_C10 :
    (∀ (st : NegotiatorState) (raw : String), jsonParse raw = none →
      onRawSignalMessage st raw = Except.error SignalError.jsonParseFailure) ∧
    jsonParse "HELLO" = none := by
  constructor
  · intro st raw h
    unfold onRawSignalMessage
    rw [h]
  · rfl

theorem claim_C10_witness :
    onRawSignalMessage { pc := freshPC, outbox := [] } "HELLO" =
      Except.error SignalError.jsonParseFailure :=
  claim_C10.1 { pc := freshPC, outbox := [] } "HELLO" claim_C10.2

/-- The reachable states of the hand-tracking connection: before
`onopen`, nothing has been sent and `wsRef.current` is unset; after
`onopen`, the sent sequence is the role announcement followed only by
telemetry frames. -/
def teleInv (s : HandTrackingState) : Prop :=
  (s.wsRefSet = false ∧ s.socket.sent = []) ∨
  (s.wsRefSet = true ∧ s.socket.readyState ≠ WsReadyState.connecting ∧
    ∃ fs, s.socket.sent = TeleMsg.roleAnnouncement :: fs ∧ ∀ m ∈ fs, isFrameMsg m = true)

theorem teleInv_init : teleInv initTele := Or.inl ⟨rfl, rfl⟩

theorem teleInv_handleHandTracking (s : HandTrackingState) (now : ℚ)
    (sources : List InputSource) (gjp : Option (ℕ → Option (Fin 16 → ℚ)))
    (h : teleInv s) : teleInv (handleHandTracking s now sources gjp) := by
  unfold handleHandTracking
  split
  · exact h
  · split
    · rcases h with ⟨h1, h2⟩ | ⟨h1, h2, fs, h3, h4⟩
      · exact Or.inl ⟨h1, h2⟩
      · exact Or.inr ⟨h1, h2, fs, h3, h4⟩
    · split
      · next href =>
        rcases h with ⟨h1, _⟩ | ⟨_, h2, fs, h3, h4⟩
        · exact absurd href (by simp [h1])
        · refine Or.inr ⟨href, ?_, ?_⟩
          · show (teleSendCaught s.socket _).readyState ≠ _
            unfold teleSendCaught
            cases hrs : s.socket.readyState <;> simp_all
          · show ∃ fs', (teleSendCaught s.socket _).sent = _ ∧ _
            unfold teleSendCaught
            cases hrs : s.socket.readyState with
            | opened =>
              refine ⟨fs ++ [TeleMsg.jointFrameMsg (buildHandData sources gjp)], ?_, ?_⟩
              · simp [h3]
              · intro m hm
                rcases List.mem_append.mp hm with hm' | hm'
                · exact h4 m hm'
                · rw [List.mem_singleton.mp hm']
                  rfl
            | connecting => simp_all
            | closing => exact ⟨fs, h3, h4⟩
            | closed => exact ⟨fs, h3, h4⟩
      · next href =>
        rcases h with ⟨h1, h2⟩ | ⟨h1, _⟩
        · exact Or.inl ⟨h1, h2⟩
        · exact absurd h1 (by simpa using href)

theorem teleInv_step (s : HandTrackingState) (e : TeleEvent) (h : teleInv s) :
    teleInv (teleStep s e) := by
  cases e with
  | openEvt =>
    unfold teleStep
    rcases h with ⟨h1, h2⟩ | ⟨h1, h2, fs, h3, h4⟩
    · cases hrs : s.socket.readyState with
      | connecting =>
        refine Or.inr ⟨rfl, by simp, [], ?_, by simp⟩
        simp [h2]
      | opened => exact Or.inl ⟨h1, h2⟩
      | closing => exact Or.inl ⟨h1, h2⟩
      | closed => exact Or.inl ⟨h1, h2⟩
    · cases hrs : s.socket.readyState with
      | connecting => exact absurd hrs h2
      | opened => exact Or.inr ⟨h1, h2, fs, h3, h4⟩
      | closing => exact Or.inr ⟨h1, h2, fs, h3, h4⟩
      | closed => exact Or.inr ⟨h1, h2, fs, h3, h4⟩
  | closeEvt =>
    rcases h with ⟨h1, h2⟩ | ⟨h1, _, fs, h3, h4⟩
    · exact Or.inl ⟨h1, h2⟩
    · exact Or.inr ⟨h1, by simp [teleStep], fs, h3, h4⟩
  | tick now sources gjp => exact teleInv_handleHandTracking s now sources gjp h

theorem teleInv_run : ∀ (evts : List TeleEvent) (s : HandTrackingState),
    teleInv s → teleInv (evts.foldl teleStep s) := by
  intro evts
  induction evts with
  | nil => intro s hs; exact hs
  | cons e es ih => intro s hs; exact ih (teleStep s e) (teleInv_step s e hs)

/-- Claim C8: on the hand-tracking connection, the role announcement
`{role, robot_id}` is sent before any telemetry frame — in every
execution, the connection's sent sequence is either empty or the role
announcement followed exclusively by joint-frame messages. -/
theorem claim_C8 : ∀ evts : List TeleEvent,
    (runTele evts).socket.sent = [] ∨
    ∃ fs, (runTele evts).socket.sent = TeleMsg.roleAnnouncement :: fs ∧
      ∀ m ∈ fs, isFrameMsg m = true := by
  intro evts
  rcases teleInv_run evts initTele teleInv_init with ⟨_, hsent⟩ | ⟨_, _, fs, hsent, hfs⟩
  · exact Or.inl hsent
  · exact Or.inr ⟨fs, hsent, hfs⟩
